import Mathlib

/-!
A shallow embedding of the mount-plan pipeline of ec2-mount-volume.

The development follows the Go sources

* `cmd/ec2-mount-volume/main.go` (`Handler.Run`, `mustExecCmd`),
* `internal/third_party/github.com/aws/ec2/ec2.go` (`FindNvmeVolume`),
* `internal/cage/aws/v1/ec2/metadata/metadata.go` (`Volumes`).

Go strings are Lean strings, handled through their character lists.  The
pointer fields of the AWS SDK records (`*string`) are represented by their
pointees.  Everything the program obtains from outside (the EC2 API, the
file system, the execution of the commands, the jittered back-off
durations) is an explicit argument, so every definition is a computable
function.
-/

namespace Ec2MountVolume

/-! ## Go standard library helpers -/

/-- Go `strings.TrimLeft(s, cutset)`: drops every leading character of `s`
that occurs in `cutset`. -/
def TrimLeft (s cutset : String) : String :=
  ⟨s.data.dropWhile (fun c => cutset.data.contains c)⟩

/-- Go `strings.HasPrefix(s, p)`. -/
def HasPrefix (s p : String) : Bool :=
  p.data.isPrefixOf s.data

/-- Go `strings.Join(elems, sep)`. -/
def Join (elems : List String) (sep : String) : String :=
  sep.intercalate elems

/-- One step of the lexical clean-up of a rooted path: the component `c`
is applied to the stack `acc` of components kept so far (last one first). -/
def cleanStep (acc : List (List Char)) (c : List Char) : List (List Char) :=
  if c = [] ∨ c = ['.'] then acc
  else if c = ['.', '.'] then acc.tail
  else c :: acc

/-- Go `filepath.Clean` on a rooted path (one that starts with a slash):
empty components and `.` are dropped, `..` removes the component before
it (and is dropped at the root). -/
def cleanRooted (path : String) : String :=
  ⟨'/' ::
    (List.intersperse ['/']
      (((path.data.splitOn '/').foldl cleanStep []).reverse)).flatten⟩

/-- Go `filepath.Join(dir, name)` for a non-empty `dir` that starts with a
slash: the two elements are joined by a slash and the result is cleaned. -/
def filepathJoin (dir name : String) : String :=
  cleanRooted (dir ++ "/" ++ name)

/-! ## Data model -/

deriving instance DecidableEq for Except

/-- The `ec2.Tag` record of the AWS SDK. -/
structure Tag where
  Key : String
  Value : String
  deriving DecidableEq

/-- The `ec2.Volume` record of the AWS SDK, reduced to the fields read. -/
structure Volume where
  VolumeId : String
  Tags : List Tag
  deriving DecidableEq

/-- The `ec2.DescribeVolumesOutput` record: one page of the listing. -/
structure DescribeVolumesOutput where
  Volumes : List Volume
  NextToken : Option String
  deriving DecidableEq

/-- What `metadata.Volumes` talks to.  `Session`, `Service` hold the error
of the respective constructor (`none` when it succeeds),
`GetInstanceIdentityDocument` the instance id or the error, and
`DescribeVolumes` the provider's answers to the successive page requests,
in request order. -/
structure Provider where
  Session : Option String
  Service : Option String
  GetInstanceIdentityDocument : Except String String
  DescribeVolumes : List (Except String DescribeVolumesOutput)

/-- The two return values of `metadata.Volumes`, together with the
`NextToken` field of each `DescribeVolumesInput` that was sent, in order. -/
structure VolumesResult where
  volumes : List Volume
  err : Option String
  requests : List (Option String)
  deriving DecidableEq

/-- The pagination loop of `metadata.Volumes`.  `token` is
`input.NextToken`, `volumes` the named result accumulated so far.  The
outcome is `none` when the provider is asked for a page the sequence of
answers does not contain. -/
def describeLoop :
    List (Except String DescribeVolumesOutput) → Option String → List Volume →
      List (Option String) → Option VolumesResult
  | [], _, _, _ => none
  | answer :: rest, token, volumes, requests =>
    match answer with
    | .error e => some ⟨[], some e, requests ++ [token]⟩
    | .ok output =>
      match output.NextToken with
      | none => some ⟨volumes ++ output.Volumes, none, requests ++ [token]⟩
      | some next =>
        describeLoop rest (some next) (volumes ++ output.Volumes) (requests ++ [token])

/-- The function `metadata.Volumes`. -/
def Volumes (p : Provider) : Option VolumesResult :=
  match p.Session with
  | some e => some ⟨[], some e, []⟩
  | none =>
    match p.Service with
    | some e => some ⟨[], some e, []⟩
    | none =>
      match p.GetInstanceIdentityDocument with
      | .error e => some ⟨[], some e, []⟩
      | .ok _ => describeLoop p.DescribeVolumes none [] []

/-! ## Device resolver -/

/-- An error value of the `os` package: its text and whether
`os.IsNotExist` holds of it. -/
structure OsError where
  isNotExist : Bool
  text : String
  deriving DecidableEq

/-- The bit `os.ModeSymlink` of a `FileMode`. -/
def ModeSymlink : Nat := 2 ^ 27

/-- The file system as `FindNvmeVolume` observes it: `Lstat` gives the mode
bits of a path or an error, `EvalSymlinks` the fully resolved path or an
error text. -/
structure FileSystem where
  Lstat : String → Except OsError Nat
  EvalSymlinks : String → Except String String

/-- The errors `FindNvmeVolume` builds with `fmt.Errorf`, kept structured:
the path, and the underlying error text or the resolved target. -/
inductive FindError where
  | stat (p : String) (cause : String)
  | readTarget (p : String) (cause : String)
  | unexpected (p : String) (resolved : String)
  deriving DecidableEq

/-- The function `FindNvmeVolume`; the pair is `(device, err)`. -/
def FindNvmeVolume (fs : FileSystem) (findName : String) : String × Option FindError :=
  let p := filepathJoin "/dev/disk/by-id/" findName
  match fs.Lstat p with
  | .error err =>
    if err.isNotExist then ("", none)
    else ("", some (.stat p err.text))
  | .ok mode =>
    if mode &&& ModeSymlink ≠ ModeSymlink then ("", none)
    else
      match fs.EvalSymlinks p with
      | .error err => ("", some (.readTarget p err))
      | .ok resolved =>
        if !HasPrefix resolved "/dev" then ("", some (.unexpected p resolved))
        else (resolved, none)

/-! ## The command handler -/

/-- The default of the flag `--tag`. -/
def defaultTagName : String := "Mount"

/-- The prefix of the link names under `/dev/disk/by-id`. -/
def symlinkPrefix : String := "nvme-Amazon_Elastic_Block_Store_vol"

/-- The second argument of `strings.TrimLeft` at line 162. -/
def volumeIdPrefix : String := "vol-"

/-- The default of the flag `--part-suffix`. -/
def defaultPartSuffix : String := "p1"

/-- The default of the flag `--mount-opt`. -/
def defaultMountOpt : String := "defaults"

/-- The default of the flag `--fs-type`. -/
def defaultFsType : String := "ext4"

/-- The default of the flag `--timeout`, in seconds. -/
def defaultTimeout : Nat := 60

/-- The flag fields of `Handler`. -/
structure Handler where
  DeviceNum : Int
  Force : Bool
  FsType : String
  MountOpt : String
  PartSuffix : String
  Tag : String
  Timeout : Nat

/-- Modelled from the spec: `backoff.Backoff` of the library
`github.com/jpillora/backoff`, which is not among the sources.  Only its
attempt counter matters here: `Attempt()` reads it, it starts at 0 and each
`Duration()` call increments it. -/
structure Backoff where
  attempt : Nat
  deriving DecidableEq

/-- The method `Backoff.Attempt`. -/
def Backoff.Attempt (b : Backoff) : Nat := b.attempt

/-- The method `Backoff.Duration`: the duration for the current attempt,
already rendered by `String()` (it is jittered, so the environment supplies
it), and the receiver after the call. -/
def Backoff.Duration (b : Backoff) (durationText : Nat → String) : String × Backoff :=
  (durationText b.attempt, ⟨b.attempt + 1⟩)

/-- Go `int64(x)` for an integer `x`: the value modulo `2 ^ 64` in the
range from `- 2 ^ 63` to `2 ^ 63 - 1`. -/
def wrapInt64 (x : Int) : Int :=
  (x + 2 ^ 63) % 2 ^ 64 - 2 ^ 63

/-- The context of line 146, reduced to the duration in nanoseconds that
`context.WithTimeout` was given. -/
structure Context where
  timeout : Int
  deriving DecidableEq

/-- The expression `context.WithTimeout(ctx, time.Duration(h.Timeout)*time.Second)`
of line 146: the product is taken in `int64` and wraps. -/
def WithTimeout (timeout : Nat) : Context :=
  ⟨wrapInt64 ((timeout : Int) * 1000000000)⟩

/-- How the execution of one command ends: the process ran and ended
without error, no process was started (the program was not found, the
context was done), or the process was started and ended with an error. -/
inductive ExecResult where
  | ok
  | startError (cause : String)
  | exitError (cause : String)
  deriving DecidableEq

/-- The environment of one run.  `Volumes k` is what the call number `k`
(from 0) of `metadata.Volumes` returns, as `(volumes, err)`;
`durationText` renders the back-off durations; `fs` is the file system
`FindNvmeVolume` reads; `exec ctx history args` is how the execution of the
command `args` under the context `ctx` ends when the processes `history`
were spawned before it. -/
structure World where
  Volumes : Nat → List Volume × Option String
  durationText : Nat → String
  fs : FileSystem
  exec : Context → List (List String) → List String → ExecResult

/-- What a run does that can be observed: the number of calls of
`metadata.Volumes`, the lines written to `h.Err()`, to `os.Stderr` and to
standard output (one entry per `Fprintf` or `Println` call), and the child
processes spawned, in order. -/
structure Trace where
  fetches : Nat
  errLog : List String
  stderr : List String
  stdout : List String
  spawned : List (List String)
  deriving DecidableEq

/-- The values `Handler.Run` panics with. -/
inductive RunError where
  | fetch (message : String) (cause : String)
  | resolve (e : FindError)
  | exec (cause : String)
  | indexOutOfRange
  deriving DecidableEq

/-- How a run ends: `Run` returns, calls `os.Exit`, or panics. -/
inductive Exit where
  | returned
  | exit (code : Int)
  | panic (e : RunError)
  deriving DecidableEq

/-- The constant `maxTries` of `Run`. -/
def maxTries : Nat := 10

/-- The retry loop of `Run` (lines 124 to 141); `fuel` bounds the number of
iterations. -/
def fetchLoop (w : World) :
    Nat → Backoff → Trace → Option (Trace × Except RunError (List Volume))
  | 0, _, _ => none
  | fuel + 1, b, t =>
    let r := w.Volumes t.fetches
    let t1 := { t with fetches := t.fetches + 1 }
    match r.2 with
    | some err =>
      if b.Attempt = maxTries then
        some (t1, .error (.fetch
          ("failed to get volumes metadata after " ++ toString maxTries ++ " tries") err))
      else
        let d := b.Duration w.durationText
        fetchLoop w fuel d.2
          { t1 with errLog := t1.errLog ++
              ["failed to get volumes metadata [" ++ err ++ "], trying again after " ++ d.1] }
    | none => some (t1, .ok r.1)

/-- The inner loop of `Run` over `volume.Tags` (lines 150 to 156): the
value of `mount` after it. -/
def findMount (tagName : String) : List Tag → String
  | [] => ""
  | tag :: rest =>
    if tag.Key = tagName ∧ tag.Value ≠ "" then tag.Value else findMount tagName rest

/-- The argument of `FindNvmeVolume` at line 162. -/
def symlinkName (volumeId : String) : String :=
  symlinkPrefix ++ TrimLeft volumeId volumeIdPrefix

/-- The two command lists `fsckArgs` and `mountArgs`. -/
structure Plan where
  fsckArgs : List (List String)
  mountArgs : List (List String)
  deriving DecidableEq

/-- The loop of `Run` over the volumes (lines 149 to 177), started with the
lists built so far. -/
def buildLoop (h : Handler) (fs : FileSystem) : List Volume → Plan → Except FindError Plan
  | [], plan => .ok plan
  | volume :: rest, plan =>
    let mount := findMount h.Tag volume.Tags
    if mount = "" then buildLoop h fs rest plan
    else
      let r := FindNvmeVolume fs (symlinkName volume.VolumeId)
      match r.2 with
      | some err => .error err
      | none =>
        buildLoop h fs rest
          { fsckArgs := plan.fsckArgs ++ [["fsck", "-M", "-y", "-V", r.1 ++ h.PartSuffix]]
            mountArgs := plan.mountArgs ++
              [["mount", "-o", h.MountOpt, "-t", h.FsType, r.1 ++ h.PartSuffix, mount]] }

/-- Modelled from the spec: `exec.CommandContext(ctx, ...)` handed to
`CommonExecutor.Standard` of the package `cage/os/exec`, which is not among
the sources.  The command is started as a child process bound to `ctx` and
waited for.  When the duration of `ctx` is not positive the context is done
from the start and no process is started; otherwise the environment tells
how the execution ends. -/
def Standard (w : World) (ctx : Context) (history : List (List String))
    (args : List String) : ExecResult :=
  if ctx.timeout ≤ 0 then .startError "context deadline exceeded"
  else w.exec ctx history args

/-- The function `mustExecCmd`: the command is executed and an error, of
the start or of the process, is the panic value.  The process is recorded
as spawned only when it was started. -/
def mustExecCmd (w : World) (ctx : Context) (args : List String) (t : Trace) :
    Trace × Option RunError :=
  match args with
  | [] => (t, some .indexOutOfRange)
  | _ :: _ =>
    match Standard w ctx t.spawned args with
    | .startError err => (t, some (.exec err))
    | .exitError err => ({ t with spawned := t.spawned ++ [args] }, some (.exec err))
    | .ok => ({ t with spawned := t.spawned ++ [args] }, none)

/-- One of the two loops of `Run` over a command list (lines 185 to 199). -/
def commandLoop (w : World) (ctx : Context) (dryrun : Bool) :
    List (List String) → Trace → Trace × Option RunError
  | [], t => (t, none)
  | args :: rest, t =>
    if dryrun then
      commandLoop w ctx dryrun rest { t with stdout := t.stdout ++ [Join args " "] }
    else
      match mustExecCmd w ctx args t with
      | (t1, some e) => (t1, some e)
      | (t1, none) => commandLoop w ctx dryrun rest t1

/-- The last part of `Run` (lines 185 to 203): both command loops and the
closing line of a dry run. -/
def drive (h : Handler) (w : World) (ctx : Context) (plan : Plan) (t : Trace) :
    Trace × Exit :=
  let dryrun := !h.Force
  match commandLoop w ctx dryrun plan.fsckArgs t with
  | (t1, some e) => (t1, .panic e)
  | (t1, none) =>
    match commandLoop w ctx dryrun plan.mountArgs t1 with
    | (t2, some e) => (t2, .panic e)
    | (t2, none) =>
      if dryrun then
        ({ t2 with stdout := t2.stdout ++
            ["Dry run complete. Run with --force to execute the commands."] }, .returned)
      else (t2, .returned)

/-- The count check of `Run` (lines 179 to 183) followed by `drive`. -/
def checkAndDrive (h : Handler) (w : World) (ctx : Context) (plan : Plan) (t : Trace) :
    Trace × Exit :=
  let actualDeviceNum : Int := plan.fsckArgs.length
  if h.DeviceNum ≠ actualDeviceNum then
    ({ t with stderr := t.stderr ++
        ["Canceled. Expected " ++ toString h.DeviceNum ++ " devices to mount but detected "
          ++ toString actualDeviceNum ++ ".\n"] }, .exit 1)
  else drive h w ctx plan t

/-- The method `Handler.Run`; `fuel` bounds the iterations of the retry
loop (11 are enough, see `fetchLoop_isSome`).  The context of line 146 is
made between the retry loop and the loop over the volumes. -/
def Run (fuel : Nat) (h : Handler) (w : World) : Option (Trace × Exit) :=
  match fetchLoop w fuel ⟨0⟩ ⟨0, [], [], [], []⟩ with
  | none => none
  | some (t, .error e) => some (t, .panic e)
  | some (t, .ok volumes) =>
    match buildLoop h w.fs volumes ⟨[], []⟩ with
    | .error err => some (t, .panic (.resolve err))
    | .ok plan => some (checkAndDrive h w (WithTimeout h.Timeout) plan t)

/-! ## Example inputs -/

/-- A file system with two of the expected links under `/dev/disk/by-id`,
one regular file there, and one link that leaves `/dev`. -/
def fsTwo : FileSystem where
  Lstat := fun p =>
    if p = "/dev/disk/by-id/nvme-Amazon_Elastic_Block_Store_vol0a" ∨
        p = "/dev/disk/by-id/nvme-Amazon_Elastic_Block_Store_vol0b" ∨
        p = "/dev/disk/by-id/nvme-Amazon_Elastic_Block_Store_vol0e" then .ok (ModeSymlink + 511)
    else if p = "/dev/disk/by-id/nvme-Amazon_Elastic_Block_Store_vol0d" then .ok 420
    else .error ⟨true, "no such file or directory"⟩
  EvalSymlinks := fun p =>
    if p = "/dev/disk/by-id/nvme-Amazon_Elastic_Block_Store_vol0a" then .ok "/dev/nvme1n1"
    else if p = "/dev/disk/by-id/nvme-Amazon_Elastic_Block_Store_vol0b" then .ok "/dev/nvme2n1"
    else if p = "/dev/disk/by-id/nvme-Amazon_Elastic_Block_Store_vol0e" then .ok "/tmp/disk"
    else .error "no such file or directory"

/-- Three volumes that carry the tag `Mount`; `fsTwo` has a link for the
first two only. -/
def threeVolumes : List Volume :=
  [⟨"vol-0a", [⟨"Name", "data"⟩, ⟨"Mount", "/data"⟩]⟩,
   ⟨"vol-0b", [⟨"Mount", ""⟩, ⟨"Mount", "/"⟩, ⟨"Mount", "/other"⟩]⟩,
   ⟨"vol-0c", [⟨"Mount", "/srv"⟩]⟩]

/-- The first two volumes of `threeVolumes` and one without the tag. -/
def twoTagged : List Volume :=
  [⟨"vol-0a", [⟨"Name", "data"⟩, ⟨"Mount", "/data"⟩]⟩,
   ⟨"vol-0f", [⟨"Name", "scratch"⟩]⟩,
   ⟨"vol-0b", [⟨"Mount", ""⟩, ⟨"Mount", "/"⟩, ⟨"Mount", "/other"⟩]⟩]

/-- A world whose first fetch returns `volumes`, with the file system
`fsTwo`, and in which every child process succeeds. -/
def worldOf (volumes : List Volume) : World where
  Volumes := fun _ => (volumes, none)
  durationText := fun _ => "100ms"
  fs := fsTwo
  exec := fun _ _ _ => .ok

/-- A world in which the calls of `metadata.Volumes` before call number
`n` fail and the later ones return `twoTagged`. -/
def worldFailing (n : Nat) : World where
  Volumes := fun k => if k < n then ([], some "connection refused") else (twoTagged, none)
  durationText := fun _ => "100ms"
  fs := fsTwo
  exec := fun _ _ _ => .ok

/-- The default flags with the given `--device-num` and `--force`. -/
def handlerOf (deviceNum : Int) (force : Bool) : Handler :=
  ⟨deviceNum, force, defaultFsType, defaultMountOpt, defaultPartSuffix, defaultTagName,
    defaultTimeout⟩

/-- A provider with two pages, the first with a token, and a further
answer that is never requested. -/
def providerTwoPages : Provider where
  Session := none
  Service := none
  GetInstanceIdentityDocument := .ok "i-01"
  DescribeVolumes :=
    [.ok ⟨[⟨"vol-0a", [⟨"Mount", "/data"⟩]⟩], some "t1"⟩,
     .ok ⟨[⟨"vol-0b", [⟨"Mount", "/"⟩]⟩], none⟩,
     .error "never requested"]

/-- A provider whose second page request fails. -/
def providerSecondFails : Provider where
  Session := none
  Service := none
  GetInstanceIdentityDocument := .ok "i-01"
  DescribeVolumes :=
    [.ok ⟨[⟨"vol-0a", [⟨"Mount", "/data"⟩]⟩], some "t1"⟩,
     .error "connection refused"]

/-- A world like `worldOf`, in which the mount of `/` is started and
fails. -/
def worldMountFails (volumes : List Volume) : World where
  Volumes := fun _ => (volumes, none)
  durationText := fun _ => "100ms"
  fs := fsTwo
  exec := fun _ _ args =>
    if args.getLast? = some "/" then .exitError "exit status 32" else .ok

/-- A world like `worldOf`, in which the program `mount` is not found. -/
def worldNoMount (volumes : List Volume) : World where
  Volumes := fun _ => (volumes, none)
  durationText := fun _ => "100ms"
  fs := fsTwo
  exec := fun _ _ args =>
    if args.head? = some "mount" then
      .startError "exec: \"mount\": executable file not found in $PATH"
    else .ok

/-- The volume list with one volume whose mount point contains a line
feed. -/
def volumeLineFeed : List Volume :=
  [⟨"vol-0a", [⟨"Mount", "/a\nb"⟩]⟩]

/-! ## Specification-side definitions -/

/-- The characters of the identifiers that EC2 issues after `vol-`: the
hexadecimal digits. -/
def hexDigits : List Char := "0123456789abcdef".data

/-- The text that a sequence of `Println` calls writes: every payload
followed by a line feed. -/
def printed (payloads : List String) : String :=
  ⟨(payloads.map (fun p => p.data ++ ['\n'])).flatten⟩

/-- The lines of a text: the pieces between the line feeds, the piece
after the last line feed left out when it is empty. -/
def textLines (text : String) : List String :=
  let pieces := text.data.splitOn '\n'
  (if pieces.getLast? = some [] then pieces.dropLast else pieces).map String.mk

/-- The volumes that receive a plan entry, each as the pair of its device
path (what `FindNvmeVolume` returned for it) and its mount point, in input
order. -/
def planEntries (h : Handler) (fs : FileSystem) (volumes : List Volume) :
    List (String × String) :=
  (volumes.filter (fun v => findMount h.Tag v.Tags ≠ "")).map
    (fun v => ((FindNvmeVolume fs (symlinkName v.VolumeId)).1, findMount h.Tag v.Tags))

/-- The check command for the device path `d`. -/
def fsckCommand (h : Handler) (d : String) : List String :=
  ["fsck", "-M", "-y", "-V", d ++ h.PartSuffix]

/-- The mount command for the device path `d` and the mount point `m`. -/
def mountCommand (h : Handler) (d m : String) : List String :=
  ["mount", "-o", h.MountOpt, "-t", h.FsType, d ++ h.PartSuffix, m]

/-! ## The device resolver -/

/-- For a name that is one path component (not empty, without slash, and
neither `.` nor `..`), the joined path is the directory followed by the
name. -/
theorem filepathJoin_component (name : String) (hslash : '/' ∉ name.data)
    (h0 : name ≠ "") (h1 : name ≠ ".") (h2 : name ≠ "..") :
    filepathJoin "/dev/disk/by-id/" name = "/dev/disk/by-id/" ++ name := by
  have hd0 : name.data ≠ [] := fun hc => h0 (String.ext hc)
  have hd1 : name.data ≠ ['.'] := fun hc => h1 (String.ext hc)
  have hd2 : name.data ≠ ['.', '.'] := fun hc => h2 (String.ext hc)
  have hno : ∀ x ∈ name.data, ¬((x == '/') = true) := by
    intro x hx hc
    have : x = '/' := by simpa using hc
    exact hslash (this ▸ hx)
  have hsplit : ("/dev/disk/by-id/" ++ "/" ++ name).data.splitOn '/' =
      [[], ['d', 'e', 'v'], ['d', 'i', 's', 'k'], ['b', 'y', '-', 'i', 'd'], [], name.data] := by
    have hdata : ("/dev/disk/by-id/" ++ "/" ++ name).data =
        [] ++ '/' :: (['d', 'e', 'v'] ++ '/' :: (['d', 'i', 's', 'k'] ++ '/' ::
          (['b', 'y', '-', 'i', 'd'] ++ '/' :: ([] ++ '/' :: name.data)))) := rfl
    rw [hdata]
    unfold List.splitOn
    rw [List.splitOnP_first _ _ (by simp) _ (by simp),
      List.splitOnP_first _ _ (by decide) _ (by simp),
      List.splitOnP_first _ _ (by decide) _ (by simp),
      List.splitOnP_first _ _ (by decide) _ (by simp),
      List.splitOnP_first _ _ (by simp) _ (by simp),
      List.splitOnP_eq_single _ _ hno]
  unfold filepathJoin cleanRooted
  rw [hsplit]
  simp only [List.foldl, cleanStep]
  simp [hd0, hd1, hd2]
  rfl

/-- Claim C9: `FindNvmeVolume` looks at the path joined from
`/dev/disk/by-id/` and the name, which for a name of one path component is
the directory followed by the name.  It returns the empty path without error
when `Lstat` reports that the path does not exist, and when the path exists
without the symlink mode bit; it returns an error and the empty path when
the path is a symlink whose resolved target does not begin with `/dev`; it
returns the resolved target without error when that target begins with
`/dev`.  Hence whenever the returned path is not empty there is no error,
the path is the resolved target of the link, and it begins with `/dev`. -/
theorem FindNvmeVolume_cases (fs : FileSystem) (name : String) :
    ('/' ∉ name.data → name ≠ "" → name ≠ "." → name ≠ ".." →
        filepathJoin "/dev/disk/by-id/" name = "/dev/disk/by-id/" ++ name) ∧
    (∀ err, fs.Lstat (filepathJoin "/dev/disk/by-id/" name) = .error err →
        err.isNotExist = true → FindNvmeVolume fs name = ("", none)) ∧
    (∀ mode, fs.Lstat (filepathJoin "/dev/disk/by-id/" name) = .ok mode →
        mode &&& ModeSymlink ≠ ModeSymlink → FindNvmeVolume fs name = ("", none)) ∧
    (∀ mode resolved, fs.Lstat (filepathJoin "/dev/disk/by-id/" name) = .ok mode →
        mode &&& ModeSymlink = ModeSymlink →
        fs.EvalSymlinks (filepathJoin "/dev/disk/by-id/" name) = .ok resolved →
        HasPrefix resolved "/dev" = false →
        FindNvmeVolume fs name =
          ("", some (.unexpected (filepathJoin "/dev/disk/by-id/" name) resolved))) ∧
    (∀ mode resolved, fs.Lstat (filepathJoin "/dev/disk/by-id/" name) = .ok mode →
        mode &&& ModeSymlink = ModeSymlink →
        fs.EvalSymlinks (filepathJoin "/dev/disk/by-id/" name) = .ok resolved →
        HasPrefix resolved "/dev" = true →
        FindNvmeVolume fs name = (resolved, none)) ∧
    ((FindNvmeVolume fs name).1 ≠ "" →
        (FindNvmeVolume fs name).2 = none ∧
        fs.EvalSymlinks (filepathJoin "/dev/disk/by-id/" name) =
          .ok (FindNvmeVolume fs name).1 ∧
        HasPrefix (FindNvmeVolume fs name).1 "/dev" = true) := by
  refine ⟨filepathJoin_component name, ?_, ?_, ?_, ?_, ?_⟩
  · intro err he hn
    simp [FindNvmeVolume, he, hn]
  · intro mode hm hb
    simp [FindNvmeVolume, hm, hb]
  · intro mode resolved hm hb hr hp
    simp [FindNvmeVolume, hm, hb, hr, hp]
  · intro mode resolved hm hb hr hp
    simp [FindNvmeVolume, hm, hb, hr, hp]
  · cases hm : fs.Lstat (filepathJoin "/dev/disk/by-id/" name) with
    | error err => by_cases hn : err.isNotExist = true <;> simp [FindNvmeVolume, hm, hn]
    | ok mode =>
      by_cases hb : mode &&& ModeSymlink = ModeSymlink
      · cases hr : fs.EvalSymlinks (filepathJoin "/dev/disk/by-id/" name) with
        | error e => simp [FindNvmeVolume, hm, hb, hr]
        | ok resolved =>
          by_cases hp : HasPrefix resolved "/dev" = true <;>
            simp [FindNvmeVolume, hm, hb, hr, hp]
      · simp [FindNvmeVolume, hm, hb]

/-- The four cases of claim C9 at the example file system: an existing
link into `/dev`. -/
theorem FindNvmeVolume_cases_witness :
    FindNvmeVolume fsTwo "nvme-Amazon_Elastic_Block_Store_vol0a" = ("/dev/nvme1n1", none) :=
  (FindNvmeVolume_cases fsTwo "nvme-Amazon_Elastic_Block_Store_vol0a").2.2.2.2.1
    (ModeSymlink + 511) "/dev/nvme1n1" (by decide) (by decide) (by decide) (by decide)

/-! ## The metadata fetcher -/

/-- The pagination loop on a sequence of answers that starts with pages
carrying a token and then has a page without one. -/
theorem describeLoop_last (pre : List DescribeVolumesOutput) (last : DescribeVolumesOutput)
    (rest : List (Except String DescribeVolumesOutput))
    (hpre : ∀ o ∈ pre, o.NextToken ≠ none) (hlast : last.NextToken = none)
    (token : Option String) (volumes : List Volume) (requests : List (Option String)) :
    describeLoop (pre.map .ok ++ .ok last :: rest) token volumes requests =
      some ⟨volumes ++ ((pre ++ [last]).map (·.Volumes)).flatten, none,
        requests ++ token :: pre.map (·.NextToken)⟩ := by
  induction pre generalizing token volumes requests with
  | nil => simp [describeLoop, hlast]
  | cons o pre ih =>
    have ho : o.NextToken ≠ none := hpre o (by simp)
    obtain ⟨next, hnext⟩ := Option.ne_none_iff_exists'.mp ho
    have ih1 := ih (fun u hu => hpre u (by simp [hu])) (some next) (volumes ++ o.Volumes)
      (requests ++ [token])
    simp only [List.map_cons, List.cons_append, describeLoop, hnext]
    refine ih1.trans ?_
    simp

/-- The pagination loop on a sequence of answers that starts with pages
carrying a token and then has a failed request. -/
theorem describeLoop_error (pre : List DescribeVolumesOutput) (e : String)
    (rest : List (Except String DescribeVolumesOutput))
    (hpre : ∀ o ∈ pre, o.NextToken ≠ none)
    (token : Option String) (volumes : List Volume) (requests : List (Option String)) :
    describeLoop (pre.map .ok ++ .error e :: rest) token volumes requests =
      some ⟨[], some e, requests ++ token :: pre.map (·.NextToken)⟩ := by
  induction pre generalizing token volumes requests with
  | nil => simp [describeLoop]
  | cons o pre ih =>
    have ho : o.NextToken ≠ none := hpre o (by simp)
    obtain ⟨next, hnext⟩ := Option.ne_none_iff_exists'.mp ho
    have ih1 := ih (fun u hu => hpre u (by simp [hu])) (some next) (volumes ++ o.Volumes)
      (requests ++ [token])
    simp only [List.map_cons, List.cons_append, describeLoop, hnext]
    refine ih1.trans ?_
    simp

/-- Claim C10: when the session, the service and the identity document
are obtained, `Volumes` on a provider whose answers are pages with a
continuation token followed by a page without one returns, without error,
the volumes of these pages concatenated in page order, having sent first a
request without token and then one request per token, each with the token
of the page before; and when the answers are pages with a token followed
by a failed request, it returns that error with an empty volume list. -/
theorem Volumes_pagination (p : Provider) (id : String)
    (hsession : p.Session = none) (hservice : p.Service = none)
    (hdoc : p.GetInstanceIdentityDocument = .ok id) :
    (∀ (pre : List DescribeVolumesOutput) last rest,
        p.DescribeVolumes = pre.map .ok ++ .ok last :: rest →
        (∀ o ∈ pre, o.NextToken ≠ none) → last.NextToken = none →
        Volumes p = some ⟨((pre ++ [last]).map (·.Volumes)).flatten, none,
          none :: pre.map (·.NextToken)⟩) ∧
    (∀ (pre : List DescribeVolumesOutput) e rest,
        p.DescribeVolumes = pre.map .ok ++ .error e :: rest →
        (∀ o ∈ pre, o.NextToken ≠ none) →
        Volumes p = some ⟨[], some e, none :: pre.map (·.NextToken)⟩) := by
  constructor
  · intro pre last rest hd hpre hlast
    simp only [Volumes, hsession, hservice, hdoc, hd]
    rw [describeLoop_last pre last rest hpre hlast]
    simp
  · intro pre e rest hd hpre
    simp only [Volumes, hsession, hservice, hdoc, hd]
    rw [describeLoop_error pre e rest hpre]
    simp

/-- Claim C10 at `providerTwoPages` and at `providerSecondFails`. -/
theorem Volumes_pagination_witness :
    Volumes providerTwoPages =
      some ⟨[⟨"vol-0a", [⟨"Mount", "/data"⟩]⟩, ⟨"vol-0b", [⟨"Mount", "/"⟩]⟩], none,
        [none, some "t1"]⟩ ∧
    Volumes providerSecondFails = some ⟨[], some "connection refused", [none, some "t1"]⟩ :=
  ⟨(Volumes_pagination providerTwoPages "i-01" rfl rfl rfl).1
      [⟨[⟨"vol-0a", [⟨"Mount", "/data"⟩]⟩], some "t1"⟩] ⟨[⟨"vol-0b", [⟨"Mount", "/"⟩]⟩], none⟩
      [.error "never requested"] rfl (by decide) rfl,
   (Volumes_pagination providerSecondFails "i-01" rfl rfl rfl).2
      [⟨[⟨"vol-0a", [⟨"Mount", "/data"⟩]⟩], some "t1"⟩] "connection refused" [] rfl
      (by decide)⟩

/-! ## The symlink name -/

/-- Claim C4 at identifiers outside the usual shape: `TrimLeft` removes
every leading character among `v`, `o`, `l` and `-`, so for `vol-v1` the
name ends in `vol1` and not in `volv1`, and the identifiers `vol-v1` and
`vol-1`, as well as `vol-vol-0a` and `vol-0a`, get the same name. -/
theorem symlinkName_cutset :
    symlinkName ("vol-" ++ "v1") = "nvme-Amazon_Elastic_Block_Store_vol1" ∧
    symlinkName ("vol-" ++ "v1") ≠ "nvme-Amazon_Elastic_Block_Store_vol" ++ "v1" ∧
    ("vol-v1" ≠ "vol-1" ∧ symlinkName "vol-v1" = symlinkName "vol-1") ∧
    ("vol-vol-0a" ≠ "vol-0a" ∧ symlinkName "vol-vol-0a" = symlinkName "vol-0a") := by
  decide

/-- The documented example of the symlink name. -/
theorem symlinkName_example :
    symlinkName "vol-0fab1d5e3f72a5e23" =
      "nvme-Amazon_Elastic_Block_Store_vol0fab1d5e3f72a5e23" := by
  decide

/-- For an identifier `vol-` followed by a string that does not start with
one of the characters `v`, `o`, `l`, `-`, exactly the four characters
`vol-` are removed. -/
theorem symlinkName_of_head (s : String)
    (hs : ∀ c rest, s.data = c :: rest → c ∉ ['v', 'o', 'l', '-']) :
    symlinkName ("vol-" ++ s) = "nvme-Amazon_Elastic_Block_Store_vol" ++ s := by
  have hdata : ("vol-" ++ s).data = 'v' :: 'o' :: 'l' :: '-' :: s.data := rfl
  have hcut : volumeIdPrefix.data = ['v', 'o', 'l', '-'] := rfl
  have hdrop : List.dropWhile (fun c => volumeIdPrefix.data.contains c) s.data = s.data := by
    cases hd : s.data with
    | nil => rfl
    | cons c rest =>
      have hc := hs c rest hd
      rw [List.dropWhile_cons]
      have hcont : (fun c => volumeIdPrefix.data.contains c) c = false := by
        simp only [hcut]
        simpa using hc
      simp only [hcont]
      rfl
  unfold symlinkName TrimLeft
  rw [hdata]
  simp only [List.dropWhile_cons]
  have e1 : volumeIdPrefix.data.contains 'v' = true := by decide
  have e2 : volumeIdPrefix.data.contains 'o' = true := by decide
  have e3 : volumeIdPrefix.data.contains 'l' = true := by decide
  have e4 : volumeIdPrefix.data.contains '-' = true := by decide
  simp only [e1, e2, e3, e4, if_true, hdrop]
  rfl

/-- A string of hexadecimal digits does not start with one of the
characters `v`, `o`, `l`, `-`. -/
theorem hexDigits_head (s : String) (hhex : ∀ c ∈ s.data, c ∈ hexDigits) :
    ∀ c rest, s.data = c :: rest → c ∉ ['v', 'o', 'l', '-'] := by
  intro c rest hd
  have hc : c ∈ hexDigits := hhex c (by simp [hd])
  have hall : ∀ x ∈ hexDigits, x ∉ ['v', 'o', 'l', '-'] := by decide
  exact hall c hc

/-- For an identifier `vol-` followed by a string that starts with one of
the characters `v`, `o`, `l`, `-`, more than the four characters `vol-` is
removed. -/
theorem symlinkName_of_cutset_head (s : String) (c : Char) (rest : List Char)
    (hd : s.data = c :: rest) (hc : c ∈ ['v', 'o', 'l', '-']) :
    symlinkName ("vol-" ++ s) ≠ "nvme-Amazon_Elastic_Block_Store_vol" ++ s := by
  intro heq
  have hdata : ("vol-" ++ s).data = 'v' :: 'o' :: 'l' :: '-' :: c :: rest := by
    rw [String.data_append, hd]
    rfl
  have hcut : volumeIdPrefix.data = ['v', 'o', 'l', '-'] := rfl
  have hcc : volumeIdPrefix.data.contains c = true := by
    rw [hcut]
    simpa using hc
  have h1 := congrArg String.data heq
  simp only [symlinkName, TrimLeft, String.data_append, hdata] at h1
  have h2 := List.append_cancel_left h1
  have e1 : volumeIdPrefix.data.contains 'v' = true := by decide
  have e2 : volumeIdPrefix.data.contains 'o' = true := by decide
  have e3 : volumeIdPrefix.data.contains 'l' = true := by decide
  have e4 : volumeIdPrefix.data.contains '-' = true := by decide
  simp only [List.dropWhile_cons, e1, e2, e3, e4, hcc, if_true, hd] at h2
  have h3 := congrArg List.length h2
  have h4 : (List.dropWhile (fun c => volumeIdPrefix.data.contains c) rest).length ≤
      rest.length := (List.dropWhile_sublist _).length_le
  simp only [List.length_cons] at h3
  omega

/-- Claim C4, amended: for every identifier `vol-` followed by a string
that does not start with one of the characters `v`, `o`, `l`, `-` (so for
every string of hexadecimal digits, see `hexDigits_head`), the symlink name
is `nvme-Amazon_Elastic_Block_Store_vol` followed by that string, and two
distinct identifiers of this kind get distinct symlink names. -/
theorem symlinkName_stripped (s : String)
    (hs : ∀ c rest, s.data = c :: rest → c ∉ ['v', 'o', 'l', '-']) :
    symlinkName ("vol-" ++ s) = "nvme-Amazon_Elastic_Block_Store_vol" ++ s ∧
    ∀ s2 : String, (∀ c rest, s2.data = c :: rest → c ∉ ['v', 'o', 'l', '-']) →
      "vol-" ++ s ≠ "vol-" ++ s2 → symlinkName ("vol-" ++ s) ≠ symlinkName ("vol-" ++ s2) := by
  refine ⟨symlinkName_of_head s hs, ?_⟩
  intro s2 hs2 hne heq
  rw [symlinkName_of_head s hs, symlinkName_of_head s2 hs2] at heq
  have h1 := congrArg String.data heq
  simp only [String.data_append] at h1
  have h2 : s = s2 := String.ext (List.append_cancel_left h1)
  exact hne (by rw [h2])

/-- Claim C4, amended, at the documented identifier
`vol-0fab1d5e3f72a5e23`. -/
theorem symlinkName_stripped_witness :
    symlinkName ("vol-" ++ "0fab1d5e3f72a5e23") =
      "nvme-Amazon_Elastic_Block_Store_vol" ++ "0fab1d5e3f72a5e23" :=
  (symlinkName_stripped "0fab1d5e3f72a5e23"
    (hexDigits_head "0fab1d5e3f72a5e23" (by decide))).1

/-! ## The plan builder -/

/-- The inner loop skips the tags that do not carry the configured key with
a value. -/
theorem findMount_append (tagName : String) (pre rest : List Tag)
    (hpre : ∀ u ∈ pre, ¬(u.Key = tagName ∧ u.Value ≠ "")) :
    findMount tagName (pre ++ rest) = findMount tagName rest := by
  induction pre with
  | nil => rfl
  | cons u pre ih =>
    have hu : ¬(u.Key = tagName ∧ u.Value ≠ "") := hpre u (by simp)
    simp only [List.cons_append, findMount, hu, if_false]
    exact ih (fun x hx => hpre x (by simp [hx]))

/-- Claim C5: the mount point of a volume is the value of the first tag
of its tag sequence whose key is the configured tag name and whose value is
not empty, whatever tags follow it, and the volume then gets one entry, with
that mount point; a volume without such a tag is skipped, the plan staying
as it was; and one volume adds at most one entry to each list. -/
theorem findMount_first_match (h : Handler) (fs : FileSystem) (volume : Volume)
    (rest : List Volume) (plan : Plan) :
    (∀ pre t post, volume.Tags = pre ++ t :: post →
        (∀ u ∈ pre, ¬(u.Key = h.Tag ∧ u.Value ≠ "")) → t.Key = h.Tag → t.Value ≠ "" →
        findMount h.Tag volume.Tags = t.Value ∧
        buildLoop h fs (volume :: rest) plan =
          match (FindNvmeVolume fs (symlinkName volume.VolumeId)).2 with
          | some err => .error err
          | none =>
            buildLoop h fs rest
              ⟨plan.fsckArgs ++
                [fsckCommand h (FindNvmeVolume fs (symlinkName volume.VolumeId)).1],
               plan.mountArgs ++
                [mountCommand h (FindNvmeVolume fs (symlinkName volume.VolumeId)).1 t.Value]⟩) ∧
    ((∀ u ∈ volume.Tags, ¬(u.Key = h.Tag ∧ u.Value ≠ "")) →
        findMount h.Tag volume.Tags = "" ∧
        buildLoop h fs (volume :: rest) plan = buildLoop h fs rest plan) ∧
    (∀ plan1, buildLoop h fs [volume] plan = .ok plan1 →
        plan1.fsckArgs.length ≤ plan.fsckArgs.length + 1 ∧
        plan1.mountArgs.length ≤ plan.mountArgs.length + 1) := by
  refine ⟨?_, ?_, ?_⟩
  · intro pre t post htags hpre hkey hval
    have hm : findMount h.Tag volume.Tags = t.Value := by
      rw [htags, findMount_append h.Tag pre (t :: post) hpre]
      simp [findMount, hkey, hval]
    refine ⟨hm, ?_⟩
    simp only [buildLoop, hm, hval, if_false, fsckCommand, mountCommand]
  · intro hnone
    have hm : findMount h.Tag volume.Tags = "" := by
      have := findMount_append h.Tag volume.Tags [] hnone
      simpa [findMount] using this
    exact ⟨hm, by simp [buildLoop, hm]⟩
  · intro plan1 hb
    by_cases hm : findMount h.Tag volume.Tags = ""
    · simp only [buildLoop, hm, if_true] at hb
      cases hb
      exact ⟨Nat.le_succ _, Nat.le_succ _⟩
    · simp only [buildLoop, hm, if_false] at hb
      cases hr : (FindNvmeVolume fs (symlinkName volume.VolumeId)).2 with
      | some err => simp [hr] at hb
      | none =>
        simp only [hr] at hb
        cases hb
        simp

/-- Claim C5 at the second volume of `threeVolumes`, whose tags are
`Mount` without value, `Mount` with `/` and `Mount` with `/other`. -/
theorem findMount_first_match_witness :
    findMount "Mount" [⟨"Mount", ""⟩, ⟨"Mount", "/"⟩, ⟨"Mount", "/other"⟩] = "/" :=
  ((findMount_first_match (handlerOf 1 false) fsTwo
      ⟨"vol-0b", [⟨"Mount", ""⟩, ⟨"Mount", "/"⟩, ⟨"Mount", "/other"⟩]⟩ [] ⟨[], []⟩).1
    [⟨"Mount", ""⟩] ⟨"Mount", "/"⟩ [⟨"Mount", "/other"⟩] rfl (by decide) rfl (by decide)).1

/-- The plan loop appends, to the lists it starts with, the commands of
the plan entries in order, when no resolution fails. -/
theorem buildLoop_eq (h : Handler) (fs : FileSystem) (volumes : List Volume) (plan : Plan)
    (hres : ∀ v ∈ volumes, findMount h.Tag v.Tags ≠ "" →
      (FindNvmeVolume fs (symlinkName v.VolumeId)).2 = none) :
    buildLoop h fs volumes plan =
      .ok ⟨plan.fsckArgs ++ (planEntries h fs volumes).map (fun e => fsckCommand h e.1),
        plan.mountArgs ++ (planEntries h fs volumes).map (fun e => mountCommand h e.1 e.2)⟩ := by
  induction volumes generalizing plan with
  | nil => simp [buildLoop, planEntries]
  | cons v rest ih =>
    have ih1 := fun p => ih p (fun u hu => hres u (by simp [hu]))
    by_cases hm : findMount h.Tag v.Tags = ""
    · simp only [buildLoop, hm, if_true]
      rw [ih1]
      simp [planEntries, hm]
    · have hr := hres v (by simp) hm
      simp only [buildLoop, hm, if_false, hr]
      rw [ih1]
      simp [planEntries, hm, fsckCommand, mountCommand]

/-- Claim C6: when no resolution fails, the plan loop returns two lists of
the same length, one command each per volume that has a mount point, in
input order; at every index the check command is `fsck -M -y -V` on the
device path followed by the partition suffix, and the mount command is
`mount -o`, the options, `-t`, the type, the same partition and the mount
point of that volume. -/
theorem buildLoop_commands (h : Handler) (fs : FileSystem) (volumes : List Volume)
    (hres : ∀ v ∈ volumes, findMount h.Tag v.Tags ≠ "" →
      (FindNvmeVolume fs (symlinkName v.VolumeId)).2 = none) :
    ∃ plan, buildLoop h fs volumes ⟨[], []⟩ = .ok plan ∧
      plan.fsckArgs.length = plan.mountArgs.length ∧
      plan.fsckArgs.length = (planEntries h fs volumes).length ∧
      ∀ (i : Nat) (d m : String), (planEntries h fs volumes)[i]? = some (d, m) →
        plan.fsckArgs[i]? = some ["fsck", "-M", "-y", "-V", d ++ h.PartSuffix] ∧
        plan.mountArgs[i]? =
          some ["mount", "-o", h.MountOpt, "-t", h.FsType, d ++ h.PartSuffix, m] := by
  refine ⟨_, buildLoop_eq h fs volumes ⟨[], []⟩ hres, by simp, by simp, ?_⟩
  intro i d m hi
  simp [List.getElem?_map, hi, fsckCommand, mountCommand]

/-- Claim C6 at `twoTagged`: the two lists that `Run` builds. -/
theorem buildLoop_commands_witness :
    ∃ plan, buildLoop (handlerOf 2 false) fsTwo twoTagged ⟨[], []⟩ = .ok plan ∧
      plan.fsckArgs.length = plan.mountArgs.length ∧
      plan.fsckArgs.length = (planEntries (handlerOf 2 false) fsTwo twoTagged).length ∧
      ∀ (i : Nat) (d m : String), (planEntries (handlerOf 2 false) fsTwo twoTagged)[i]? = some (d, m) →
        plan.fsckArgs[i]? = some ["fsck", "-M", "-y", "-V", d ++ "p1"] ∧
        plan.mountArgs[i]? = some ["mount", "-o", "defaults", "-t", "ext4", d ++ "p1", m] :=
  buildLoop_commands (handlerOf 2 false) fsTwo twoTagged (by decide)

/-! ## The retry loop -/

/-- The retry loop writes only to `h.Err()`: standard output, `os.Stderr`
and the spawned processes are as before. -/
theorem fetchLoop_trace (w : World) (fuel : Nat) (b : Backoff) (t t1 : Trace)
    (r : Except RunError (List Volume)) (hf : fetchLoop w fuel b t = some (t1, r)) :
    t1.stdout = t.stdout ∧ t1.stderr = t.stderr ∧ t1.spawned = t.spawned := by
  induction fuel generalizing b t with
  | zero => simp [fetchLoop] at hf
  | succ fuel ih =>
    simp only [fetchLoop] at hf
    cases he : (w.Volumes t.fetches).2 with
    | none =>
      simp only [he] at hf
      cases hf
      exact ⟨rfl, rfl, rfl⟩
    | some err =>
      simp only [he] at hf
      by_cases hb : b.Attempt = maxTries
      · simp only [hb, if_true] at hf
        cases hf
        exact ⟨rfl, rfl, rfl⟩
      · simp only [hb, if_false] at hf
        have h1 := ih _ _ hf
        simpa using h1

/-- With enough fuel for the attempts that remain, the retry loop ends. -/
theorem fetchLoop_isSome (w : World) (fuel : Nat) (b : Backoff) (t : Trace)
    (hb : b.attempt ≤ maxTries) (hfuel : maxTries < fuel + b.attempt) :
    (fetchLoop w fuel b t).isSome = true := by
  induction fuel generalizing b t with
  | zero => omega
  | succ fuel ih =>
    simp only [fetchLoop]
    cases he : (w.Volumes t.fetches).2 with
    | none => rfl
    | some err =>
      by_cases hm : b.Attempt = maxTries
      · simp [hm]
      · simp only [hm, if_false]
        have hm1 : b.attempt ≠ maxTries := hm
        apply ih
        · simp only [Backoff.Duration]
          omega
        · simp only [Backoff.Duration]
          omega

/-- More fuel does not change the outcome of a retry loop that ended. -/
theorem fetchLoop_succ (w : World) (fuel : Nat) (b : Backoff) (t : Trace)
    (r : Trace × Except RunError (List Volume)) (hf : fetchLoop w fuel b t = some r) :
    fetchLoop w (fuel + 1) b t = some r := by
  induction fuel generalizing b t with
  | zero => simp [fetchLoop] at hf
  | succ fuel ih =>
    rw [fetchLoop]
    rw [fetchLoop] at hf
    cases he : (w.Volumes t.fetches).2 with
    | none => simpa only [he] using hf
    | some err =>
      simp only [he] at hf ⊢
      by_cases hm : b.Attempt = maxTries
      · simpa only [hm, if_true] using hf
      · simp only [hm, if_false] at hf ⊢
        exact ih _ _ hf

/-- From 11 on, the fuel does not matter to the retry loop of `Run`. -/
theorem fetchLoop_fuel (w : World) (n : Nat) (t : Trace) :
    fetchLoop w (11 + n) ⟨0⟩ t = fetchLoop w 11 ⟨0⟩ t := by
  have h11 := fetchLoop_isSome w 11 ⟨0⟩ t (by decide) (by decide)
  obtain ⟨r, hr⟩ := Option.isSome_iff_exists.mp h11
  rw [hr]
  induction n with
  | zero => exact hr
  | succ n ih => exact fetchLoop_succ w (11 + n) ⟨0⟩ t r ih

/-- The method `Run` ends for every fuel from 11 on, and with the same
outcome. -/
theorem Run_fuel (h : Handler) (w : World) (n : Nat) :
    Run (11 + n) h w = Run 11 h w ∧ (Run 11 h w).isSome = true := by
  constructor
  · simp only [Run, fetchLoop_fuel]
  · have h11 := fetchLoop_isSome w 11 ⟨0⟩ ⟨0, [], [], [], []⟩ (by decide) (by decide)
    obtain ⟨r, hr⟩ := Option.isSome_iff_exists.mp h11
    obtain ⟨t, res⟩ := r
    cases res with
    | error e => simp [Run, hr]
    | ok volumes =>
      cases hp : buildLoop h w.fs volumes ⟨[], []⟩ <;> simp [Run, hr, hp]

/-! ## The command loops -/

/-- In a dry run a command loop prints the commands, one line each. -/
theorem commandLoop_dry (w : World) (ctx : Context) (cmds : List (List String)) (t : Trace) :
    commandLoop w ctx true cmds t =
      ({ t with stdout := t.stdout ++ cmds.map (fun args => Join args " ") }, none) := by
  induction cmds generalizing t with
  | nil => simp [commandLoop]
  | cons c cmds ih =>
    simp only [commandLoop, if_true]
    rw [ih]
    simp

/-- Two command loops in a row are one loop over the concatenation, the
second one being entered only when the first one went through. -/
theorem commandLoop_append (w : World) (ctx : Context) (dryrun : Bool)
    (xs ys : List (List String)) (t : Trace) :
    commandLoop w ctx dryrun (xs ++ ys) t =
      match commandLoop w ctx dryrun xs t with
      | (t1, some e) => (t1, some e)
      | (t1, none) => commandLoop w ctx dryrun ys t1 := by
  induction xs generalizing t with
  | nil => simp [commandLoop]
  | cons c xs ih =>
    cases dryrun with
    | true =>
      simp only [List.cons_append, commandLoop, if_true]
      exact ih _
    | false =>
      simp only [List.cons_append, commandLoop, Bool.false_eq_true, if_false]
      cases hm : mustExecCmd w ctx c t with
      | mk t1 r =>
        cases r with
        | some e => rfl
        | none => exact ih _

/-- The last part of `Run` as one loop over the check commands followed by
the mount commands. -/
theorem drive_eq (h : Handler) (w : World) (ctx : Context) (plan : Plan) (t : Trace) :
    drive h w ctx plan t =
      match commandLoop w ctx (!h.Force) (plan.fsckArgs ++ plan.mountArgs) t with
      | (t2, some e) => (t2, .panic e)
      | (t2, none) =>
        if (!h.Force) = true then
          ({ t2 with stdout := t2.stdout ++
              ["Dry run complete. Run with --force to execute the commands."] }, .returned)
        else (t2, .returned) := by
  rw [commandLoop_append]
  simp only [drive]
  cases h1 : commandLoop w ctx (!h.Force) plan.fsckArgs t with
  | mk t1 r =>
    cases r with
    | some e => rfl
    | none => rfl

/-- The last part of `Run` never calls `os.Exit`. -/
theorem drive_exit (h : Handler) (w : World) (ctx : Context) (plan : Plan) (t : Trace)
    (code : Int) : (drive h w ctx plan t).2 ≠ .exit code := by
  rw [drive_eq]
  cases h1 : commandLoop w ctx (!h.Force) (plan.fsckArgs ++ plan.mountArgs) t with
  | mk t1 r =>
    cases r with
    | some e => simp
    | none =>
      by_cases hd : (!h.Force) = true <;> simp [hd]

/-- On a command with a program name, `mustExecCmd` goes by the way the
execution ends: a process that was started is recorded, and an error of
either kind is the panic value. -/
theorem mustExecCmd_cons (w : World) (ctx : Context) (c : List String) (t : Trace)
    (hc : c ≠ []) :
    mustExecCmd w ctx c t =
      match Standard w ctx t.spawned c with
      | .startError err => (t, some (.exec err))
      | .exitError err => ({ t with spawned := t.spawned ++ [c] }, some (.exec err))
      | .ok => ({ t with spawned := t.spawned ++ [c] }, none) := by
  cases c with
  | nil => exact absurd rfl hc
  | cons a as => rfl

/-- A forced command loop either runs every command, each one ending
without error, or stops at the first command whose execution ends with an
error: before its process is started when the start fails, right after the
process otherwise. -/
theorem commandLoop_forced (w : World) (ctx : Context) (cmds : List (List String))
    (hne : ∀ c ∈ cmds, c ≠ []) (t : Trace) :
    ((∀ (i : Nat) (c : List String), cmds[i]? = some c →
          Standard w ctx (t.spawned ++ cmds.take i) c = .ok) ∧
        commandLoop w ctx false cmds t = ({ t with spawned := t.spawned ++ cmds }, none)) ∨
    (∃ (j : Nat) (c : List String) (e : String), cmds[j]? = some c ∧
        (∀ (i : Nat) (c1 : List String), i < j → cmds[i]? = some c1 →
          Standard w ctx (t.spawned ++ cmds.take i) c1 = .ok) ∧
        ((Standard w ctx (t.spawned ++ cmds.take j) c = .startError e ∧
            commandLoop w ctx false cmds t =
              ({ t with spawned := t.spawned ++ cmds.take j }, some (.exec e))) ∨
          (Standard w ctx (t.spawned ++ cmds.take j) c = .exitError e ∧
            commandLoop w ctx false cmds t =
              ({ t with spawned := t.spawned ++ cmds.take (j + 1) }, some (.exec e))))) := by
  induction cmds generalizing t with
  | nil =>
    left
    exact ⟨fun i c hi => by simp at hi, by simp [commandLoop]⟩
  | cons c cmds ih =>
    have hc : c ≠ [] := hne c (by simp)
    have hrest : ∀ x ∈ cmds, x ≠ [] := fun x hx => hne x (by simp [hx])
    simp only [commandLoop, Bool.false_eq_true, if_false, mustExecCmd_cons w ctx c t hc]
    cases hx : Standard w ctx t.spawned c with
    | startError e =>
      right
      exact ⟨0, c, e, by simp, fun i c1 hi => by omega, Or.inl ⟨by simpa using hx, by simp⟩⟩
    | exitError e =>
      right
      exact ⟨0, c, e, by simp, fun i c1 hi => by omega, Or.inr ⟨by simpa using hx, by simp⟩⟩
    | ok =>
      simp only []
      have hstep : ∀ (i : Nat) (x : List String) (r : ExecResult),
          (∀ (k : Nat), i = k + 1 → cmds[k]? = some x →
            Standard w ctx (t.spawned ++ [c] ++ cmds.take k) x = r) →
          (i = 0 → r = .ok) →
          (c :: cmds)[i]? = some x →
          Standard w ctx (t.spawned ++ (c :: cmds).take i) x = r := by
        intro i x r hk h0 hi
        cases i with
        | zero =>
          simp only [List.getElem?_cons_zero, Option.some.injEq] at hi
          subst hi
          rw [h0 rfl]
          simpa using hx
        | succ k =>
          simp only [List.getElem?_cons_succ] at hi
          have := hk k rfl hi
          simpa using this
      rcases ih hrest { t with spawned := t.spawned ++ [c] } with
        ⟨hall, hrun⟩ | ⟨j, cj, e, hj, hbefore, hlast⟩
      · left
        refine ⟨?_, by rw [hrun]; simp⟩
        intro i x hi
        exact hstep i x .ok (fun k _ hk => hall k x hk) (fun _ => rfl) hi
      · right
        refine ⟨j + 1, cj, e, by simpa using hj, ?_, ?_⟩
        · intro i x hi hx1
          exact hstep i x .ok (fun k hik hk => hbefore k x (by omega) hk) (fun _ => rfl) hx1
        · rcases hlast with ⟨hfail, hrun⟩ | ⟨hfail, hrun⟩
          · exact Or.inl ⟨by simpa using hfail, by rw [hrun]; simp⟩
          · exact Or.inr ⟨by simpa using hfail, by rw [hrun]; simp⟩

/-- What the plan loop keeps: the two lists stay equally long and no
command is empty. -/
theorem buildLoop_inv (h : Handler) (fs : FileSystem) (volumes : List Volume)
    (plan plan1 : Plan) (hb : buildLoop h fs volumes plan = .ok plan1) :
    (plan.fsckArgs.length = plan.mountArgs.length →
      plan1.fsckArgs.length = plan1.mountArgs.length) ∧
    ((∀ c ∈ plan.fsckArgs ++ plan.mountArgs, c ≠ []) →
      ∀ c ∈ plan1.fsckArgs ++ plan1.mountArgs, c ≠ []) := by
  induction volumes generalizing plan with
  | nil =>
    simp only [buildLoop, Except.ok.injEq] at hb
    subst hb
    exact ⟨id, id⟩
  | cons v rest ih =>
    by_cases hm : findMount h.Tag v.Tags = ""
    · simp only [buildLoop, hm, if_true] at hb
      exact ih plan hb
    · simp only [buildLoop, hm, if_false] at hb
      cases hr : (FindNvmeVolume fs (symlinkName v.VolumeId)).2 with
      | some err => simp [hr] at hb
      | none =>
        simp only [hr] at hb
        have h1 := ih _ hb
        constructor
        · intro hl
          exact h1.1 (by simp [hl])
        · intro hl
          apply h1.2
          intro c hc
          simp only [List.mem_append, List.mem_singleton] at hc
          rcases hc with (hc | hc) | (hc | hc)
          · exact hl c (by simp [hc])
          · simp [hc]
          · exact hl c (by simp [hc])
          · simp [hc]

/-- The plan loop reads neither `Force` nor `DeviceNum`. -/
theorem buildLoop_flags (h : Handler) (fs : FileSystem) (volumes : List Volume) (plan : Plan)
    (n : Int) (force : Bool) :
    buildLoop { h with DeviceNum := n, Force := force } fs volumes plan =
      buildLoop h fs volumes plan := by
  induction volumes generalizing plan with
  | nil => rfl
  | cons v rest ih =>
    simp only [buildLoop]
    rw [ih, ih]

/-- After a successful fetch and plan construction, `Run` is the count
check followed by the last part. -/
theorem Run_eq_checkAndDrive (fuel : Nat) (h : Handler) (w : World) (t : Trace)
    (volumes : List Volume) (plan : Plan)
    (hfetch : fetchLoop w fuel ⟨0⟩ ⟨0, [], [], [], []⟩ = some (t, .ok volumes))
    (hplan : buildLoop h w.fs volumes ⟨[], []⟩ = .ok plan) :
    Run fuel h w = some (checkAndDrive h w (WithTimeout h.Timeout) plan t) := by
  simp only [Run, hfetch, hplan]

/-- A forced run with a plan of the declared length: either every command
of the plan is executed without error and `Run` returns, or `Run` panics
at the first command whose execution ends with an error, that command
being among the spawned ones exactly when its process was started. -/
theorem Run_forced (fuel : Nat) (h : Handler) (w : World) (t : Trace)
    (volumes : List Volume) (plan : Plan) (hforce : h.Force = true)
    (hfetch : fetchLoop w fuel ⟨0⟩ ⟨0, [], [], [], []⟩ = some (t, .ok volumes))
    (hplan : buildLoop h w.fs volumes ⟨[], []⟩ = .ok plan)
    (hcount : h.DeviceNum = (plan.fsckArgs.length : Int)) :
    ((∀ (i : Nat) (c : List String), (plan.fsckArgs ++ plan.mountArgs)[i]? = some c →
          Standard w (WithTimeout h.Timeout) ((plan.fsckArgs ++ plan.mountArgs).take i) c =
            .ok) ∧
        Run fuel h w =
          some ({ t with spawned := plan.fsckArgs ++ plan.mountArgs }, .returned)) ∨
    (∃ (j : Nat) (c : List String) (e : String),
        (plan.fsckArgs ++ plan.mountArgs)[j]? = some c ∧
        (∀ (i : Nat) (c1 : List String), i < j →
          (plan.fsckArgs ++ plan.mountArgs)[i]? = some c1 →
          Standard w (WithTimeout h.Timeout) ((plan.fsckArgs ++ plan.mountArgs).take i) c1 =
            .ok) ∧
        ((Standard w (WithTimeout h.Timeout) ((plan.fsckArgs ++ plan.mountArgs).take j) c =
              .startError e ∧
            Run fuel h w =
              some ({ t with spawned := (plan.fsckArgs ++ plan.mountArgs).take j },
                .panic (.exec e))) ∨
          (Standard w (WithTimeout h.Timeout) ((plan.fsckArgs ++ plan.mountArgs).take j) c =
              .exitError e ∧
            Run fuel h w =
              some ({ t with spawned := (plan.fsckArgs ++ plan.mountArgs).take (j + 1) },
                .panic (.exec e))))) := by
  have htr := fetchLoop_trace w fuel _ _ t _ hfetch
  have hsp : t.spawned = [] := htr.2.2
  have hne := (buildLoop_inv h w.fs volumes ⟨[], []⟩ plan hplan).2 (by simp)
  rw [Run_eq_checkAndDrive fuel h w t volumes plan hfetch hplan]
  simp only [checkAndDrive, hcount, ne_eq, not_true_eq_false, if_false, drive_eq, hforce,
    Bool.not_true]
  rcases commandLoop_forced w (WithTimeout h.Timeout) (plan.fsckArgs ++ plan.mountArgs) hne t
    with ⟨hall, hrun⟩ | ⟨j, c, e, hj, hbefore, hlast⟩
  · left
    refine ⟨?_, by rw [hrun]; simp [hsp]⟩
    intro i c hi
    simpa [hsp] using hall i c hi
  · right
    refine ⟨j, c, e, hj, ?_, ?_⟩
    · intro i c1 hi hc1
      simpa [hsp] using hbefore i c1 hi hc1
    · rcases hlast with ⟨hfail, hrun⟩ | ⟨hfail, hrun⟩
      · exact Or.inl ⟨by simpa [hsp] using hfail, by rw [hrun]; simp [hsp]⟩
      · exact Or.inr ⟨by simpa [hsp] using hfail, by rw [hrun]; simp [hsp]⟩

/-! ## The text of the standard output -/

/-- The text of a sequence of `Println` calls is its payloads, followed by
an empty piece, joined by line feeds. -/
theorem printed_data (payloads : List String) :
    (printed payloads).data =
      ['\n'].intercalate (payloads.map String.data ++ [[]]) := by
  induction payloads with
  | nil => rfl
  | cons p ps ih =>
    have ih1 : ((ps.map (fun q => q.data ++ ['\n'])).flatten) =
        ['\n'].intercalate (ps.map String.data ++ [[]]) := ih
    simp only [printed, List.map_cons, List.flatten_cons, List.cons_append]
    rw [ih1]
    cases ps with
    | nil => simp [List.intercalate]
    | cons q qs => simp [List.intercalate]

/-- When no payload contains a line feed, the lines of the text that a
sequence of `Println` calls writes are the payloads. -/
theorem textLines_printed (payloads : List String)
    (hnl : ∀ p ∈ payloads, '\n' ∉ p.data) :
    textLines (printed payloads) = payloads := by
  have hsplit : (printed payloads).data.splitOn '\n' = payloads.map String.data ++ [[]] := by
    rw [printed_data]
    apply List.splitOn_intercalate
    · intro l hl
      simp only [List.mem_append, List.mem_map, List.mem_singleton] at hl
      rcases hl with ⟨p, hp, rfl⟩ | rfl
      · exact hnl p hp
      · simp
    · simp
  have hid : (String.mk ∘ String.data) = id := funext fun p => rfl
  simp only [textLines, hsplit]
  simp [List.dropLast_concat, hid]

/-- The accumulating loop of `String.intercalate` adds no character that
is in none of its arguments. -/
theorem intercalate_go_not_mem (x : Char) (sep : String) (hsep : x ∉ sep.data)
    (elems : List String) (helems : ∀ a ∈ elems, x ∉ a.data) (acc : String)
    (hacc : x ∉ acc.data) :
    x ∉ (String.intercalate.go acc sep elems).data := by
  induction elems generalizing acc with
  | nil => simpa [String.intercalate.go] using hacc
  | cons a rest ih =>
    simp only [String.intercalate.go]
    apply ih (fun b hb => helems b (by simp [hb]))
    simp only [String.data_append, List.mem_append, not_or]
    exact ⟨⟨hacc, hsep⟩, helems a (by simp)⟩

/-- A command whose tokens contain no line feed is joined to a line
without line feed. -/
theorem Join_no_line_feed (args : List String) (hargs : ∀ a ∈ args, '\n' ∉ a.data) :
    '\n' ∉ (Join args " ").data := by
  cases args with
  | nil => simp [Join, String.intercalate]
  | cons a rest =>
    simp only [Join, String.intercalate]
    exact intercalate_go_not_mem '\n' " " (by decide) rest
      (fun b hb => hargs b (by simp [hb])) a (hargs a (by simp))

/-! ## The run -/

/-- Claim C2: after a successful fetch and plan construction, `Run`
goes on to print or execute the plan when the number of entries equals
`DeviceNum`; when the two differ it writes to `os.Stderr` the message
naming the expected and the detected count and calls `os.Exit(1)`, nothing
having been printed or spawned.  So it exits with code 1 exactly when the
two numbers differ. -/
theorem Run_count_check (fuel : Nat) (h : Handler) (w : World) (t : Trace)
    (volumes : List Volume) (plan : Plan)
    (hfetch : fetchLoop w fuel ⟨0⟩ ⟨0, [], [], [], []⟩ = some (t, .ok volumes))
    (hplan : buildLoop h w.fs volumes ⟨[], []⟩ = .ok plan) :
    (h.DeviceNum = (plan.fsckArgs.length : Int) →
      Run fuel h w = some (drive h w (WithTimeout h.Timeout) plan t)) ∧
    (h.DeviceNum ≠ (plan.fsckArgs.length : Int) →
      Run fuel h w =
        some ({ t with stderr :=
          ["Canceled. Expected " ++ toString h.DeviceNum ++ " devices to mount but detected "
            ++ toString (plan.fsckArgs.length : Int) ++ ".\n"] }, .exit 1) ∧
      t.stdout = [] ∧ t.spawned = []) ∧
    ((∃ t1, Run fuel h w = some (t1, .exit 1)) ↔
      h.DeviceNum ≠ (plan.fsckArgs.length : Int)) := by
  have htr := fetchLoop_trace w fuel _ _ t _ hfetch
  have hrun := Run_eq_checkAndDrive fuel h w t volumes plan hfetch hplan
  have hyes : h.DeviceNum = (plan.fsckArgs.length : Int) →
      Run fuel h w = some (drive h w (WithTimeout h.Timeout) plan t) := by
    intro hc
    rw [hrun]
    simp [checkAndDrive, hc]
  have hno : h.DeviceNum ≠ (plan.fsckArgs.length : Int) →
      Run fuel h w =
        some ({ t with stderr :=
          ["Canceled. Expected " ++ toString h.DeviceNum ++ " devices to mount but detected "
            ++ toString (plan.fsckArgs.length : Int) ++ ".\n"] }, .exit 1) := by
    intro hc
    rw [hrun]
    simp only [checkAndDrive, hc, ne_eq, not_false_eq_true, if_true, htr.2.1]
    rfl
  refine ⟨hyes, fun hc => ⟨hno hc, htr.1, htr.2.2⟩, ?_⟩
  constructor
  · rintro ⟨t1, ht1⟩ hc
    rw [hyes hc] at ht1
    have hd := drive_exit h w (WithTimeout h.Timeout) plan t 1
    simp only [Option.some.injEq] at ht1
    rw [ht1] at hd
    exact hd rfl
  · intro hc
    exact ⟨_, hno hc⟩

/-- Claim C2 at `twoTagged` with `--device-num 3`: two entries are
detected, so the run is cancelled. -/
theorem Run_count_check_witness :
    Run 11 (handlerOf 3 false) (worldOf twoTagged) =
      some (⟨1, [], ["Canceled. Expected 3 devices to mount but detected 2.\n"], [], []⟩,
        .exit 1) :=
  ((Run_count_check 11 (handlerOf 3 false) (worldOf twoTagged) ⟨1, [], [], [], []⟩ twoTagged
      ⟨[["fsck", "-M", "-y", "-V", "/dev/nvme1n1p1"], ["fsck", "-M", "-y", "-V", "/dev/nvme2n1p1"]],
       [["mount", "-o", "defaults", "-t", "ext4", "/dev/nvme1n1p1", "/data"],
        ["mount", "-o", "defaults", "-t", "ext4", "/dev/nvme2n1p1", "/"]]⟩
      (by decide) (by decide)).2.1 (by decide)).1

/-- Claim C7: in a forced run with a plan of the declared length, either
every check command and then every mount command is executed without error,
all of them are spawned in this order and `Run` returns; or `Run` panics at
the first command whose execution ends with an error, the commands before
it having ended without error and none after it being spawned: when the
start of that command fails (the program is not found, the context is
already done) the spawned processes are the commands before it, and when
its process ends with an error they are the commands up to it.  When every
command ends without error the first case holds.  In all cases the spawned
commands are a prefix of the check commands followed by the mount commands,
and when a mount command was spawned every check command has ended without
error. -/
theorem Run_forced_order (fuel : Nat) (h : Handler) (w : World) (t : Trace)
    (volumes : List Volume) (plan : Plan) (hforce : h.Force = true)
    (hfetch : fetchLoop w fuel ⟨0⟩ ⟨0, [], [], [], []⟩ = some (t, .ok volumes))
    (hplan : buildLoop h w.fs volumes ⟨[], []⟩ = .ok plan)
    (hcount : h.DeviceNum = (plan.fsckArgs.length : Int)) :
    (((∀ (i : Nat) (c : List String), (plan.fsckArgs ++ plan.mountArgs)[i]? = some c →
          Standard w (WithTimeout h.Timeout) ((plan.fsckArgs ++ plan.mountArgs).take i) c =
            .ok) ∧
        Run fuel h w =
          some ({ t with spawned := plan.fsckArgs ++ plan.mountArgs }, .returned)) ∨
      (∃ (j : Nat) (c : List String) (e : String),
        (plan.fsckArgs ++ plan.mountArgs)[j]? = some c ∧
        (∀ (i : Nat) (c1 : List String), i < j →
          (plan.fsckArgs ++ plan.mountArgs)[i]? = some c1 →
          Standard w (WithTimeout h.Timeout) ((plan.fsckArgs ++ plan.mountArgs).take i) c1 =
            .ok) ∧
        ((Standard w (WithTimeout h.Timeout) ((plan.fsckArgs ++ plan.mountArgs).take j) c =
              .startError e ∧
            Run fuel h w =
              some ({ t with spawned := (plan.fsckArgs ++ plan.mountArgs).take j },
                .panic (.exec e))) ∨
          (Standard w (WithTimeout h.Timeout) ((plan.fsckArgs ++ plan.mountArgs).take j) c =
              .exitError e ∧
            Run fuel h w =
              some ({ t with spawned := (plan.fsckArgs ++ plan.mountArgs).take (j + 1) },
                .panic (.exec e)))))) ∧
    ((∀ (i : Nat) (c : List String), (plan.fsckArgs ++ plan.mountArgs)[i]? = some c →
          Standard w (WithTimeout h.Timeout) ((plan.fsckArgs ++ plan.mountArgs).take i) c =
            .ok) →
      Run fuel h w =
        some ({ t with spawned := plan.fsckArgs ++ plan.mountArgs }, .returned)) ∧
    (∀ t1 x, Run fuel h w = some (t1, x) →
      t1.spawned <+: plan.fsckArgs ++ plan.mountArgs ∧
      (plan.fsckArgs.length < t1.spawned.length →
        ∀ (i : Nat) (c : List String), plan.fsckArgs[i]? = some c →
          Standard w (WithTimeout h.Timeout) (plan.fsckArgs.take i) c = .ok)) := by
  have hmain := Run_forced fuel h w t volumes plan hforce hfetch hplan hcount
  refine ⟨hmain, ?_, ?_⟩
  · intro hall
    rcases hmain with ⟨-, hr⟩ | ⟨j, c, e, hj, -, ⟨hfail, -⟩ | ⟨hfail, -⟩⟩
    · exact hr
    · rw [hall j c hj] at hfail
      cases hfail
    · rw [hall j c hj] at hfail
      cases hfail
  intro t1 x hrun
  have hleft : ∀ (i : Nat) (c : List String), plan.fsckArgs[i]? = some c →
      (plan.fsckArgs ++ plan.mountArgs)[i]? = some c ∧
      (plan.fsckArgs ++ plan.mountArgs).take i = plan.fsckArgs.take i ∧
      i < plan.fsckArgs.length := by
    intro i c hi
    have hlt : i < plan.fsckArgs.length := (List.getElem?_eq_some_iff.mp hi).1
    refine ⟨?_, ?_, hlt⟩
    · rw [List.getElem?_append_left hlt]
      exact hi
    · exact List.take_append_of_le_length (Nat.le_of_lt hlt)
  have hcase : ∀ (j k : Nat) (c : List String),
      (plan.fsckArgs ++ plan.mountArgs)[j]? = some c →
      (∀ (i : Nat) (c1 : List String), i < j →
        (plan.fsckArgs ++ plan.mountArgs)[i]? = some c1 →
        Standard w (WithTimeout h.Timeout) ((plan.fsckArgs ++ plan.mountArgs).take i) c1 =
          .ok) →
      k ≤ j + 1 →
      t1.spawned = (plan.fsckArgs ++ plan.mountArgs).take k →
      t1.spawned <+: plan.fsckArgs ++ plan.mountArgs ∧
      (plan.fsckArgs.length < t1.spawned.length →
        ∀ (i : Nat) (c : List String), plan.fsckArgs[i]? = some c →
          Standard w (WithTimeout h.Timeout) (plan.fsckArgs.take i) c = .ok) := by
    intro j k c hj hbefore hk hsp
    rw [hsp]
    refine ⟨List.take_prefix _ _, ?_⟩
    intro hlen i c1 hi
    obtain ⟨h1, h2, h3⟩ := hleft i c1 hi
    simp only [List.length_take] at hlen
    rw [← h2]
    exact hbefore i c1 (by omega) h1
  rcases hmain with ⟨hall, hr⟩ | ⟨j, c, e, hj, hbefore, ⟨-, hr⟩ | ⟨-, hr⟩⟩
  · rw [hr] at hrun
    simp only [Option.some.injEq, Prod.mk.injEq] at hrun
    obtain ⟨ht1, -⟩ := hrun
    subst ht1
    refine ⟨List.prefix_refl _, ?_⟩
    intro _ i c hi
    obtain ⟨h1, h2, -⟩ := hleft i c hi
    rw [← h2]
    exact hall i c h1
  · rw [hr] at hrun
    simp only [Option.some.injEq, Prod.mk.injEq] at hrun
    exact hcase j j c hj hbefore (Nat.le_succ j) (by rw [← hrun.1])
  · rw [hr] at hrun
    simp only [Option.some.injEq, Prod.mk.injEq] at hrun
    exact hcase j (j + 1) c hj hbefore (Nat.le_refl _) (by rw [← hrun.1])

/-- Claim C7 at `twoTagged`: when the second mount is started and fails,
both checks and both mounts are spawned, in this order, and the second
check had ended without error; when the program `mount` is not found, the
two checks are all that is spawned. -/
theorem Run_forced_order_witness :
    ([["fsck", "-M", "-y", "-V", "/dev/nvme1n1p1"], ["fsck", "-M", "-y", "-V", "/dev/nvme2n1p1"],
      ["mount", "-o", "defaults", "-t", "ext4", "/dev/nvme1n1p1", "/data"],
      ["mount", "-o", "defaults", "-t", "ext4", "/dev/nvme2n1p1", "/"]] <+:
      [["fsck", "-M", "-y", "-V", "/dev/nvme1n1p1"], ["fsck", "-M", "-y", "-V", "/dev/nvme2n1p1"]]
        ++ [["mount", "-o", "defaults", "-t", "ext4", "/dev/nvme1n1p1", "/data"],
            ["mount", "-o", "defaults", "-t", "ext4", "/dev/nvme2n1p1", "/"]] ∧
    Standard (worldMountFails twoTagged) (WithTimeout 60)
      [["fsck", "-M", "-y", "-V", "/dev/nvme1n1p1"]]
      ["fsck", "-M", "-y", "-V", "/dev/nvme2n1p1"] = .ok) ∧
    [["fsck", "-M", "-y", "-V", "/dev/nvme1n1p1"], ["fsck", "-M", "-y", "-V", "/dev/nvme2n1p1"]] <+:
      [["fsck", "-M", "-y", "-V", "/dev/nvme1n1p1"], ["fsck", "-M", "-y", "-V", "/dev/nvme2n1p1"]]
        ++ [["mount", "-o", "defaults", "-t", "ext4", "/dev/nvme1n1p1", "/data"],
            ["mount", "-o", "defaults", "-t", "ext4", "/dev/nvme2n1p1", "/"]] :=
  ⟨⟨((Run_forced_order 11 (handlerOf 2 true) (worldMountFails twoTagged) ⟨1, [], [], [], []⟩
      twoTagged
      ⟨[["fsck", "-M", "-y", "-V", "/dev/nvme1n1p1"], ["fsck", "-M", "-y", "-V", "/dev/nvme2n1p1"]],
       [["mount", "-o", "defaults", "-t", "ext4", "/dev/nvme1n1p1", "/data"],
        ["mount", "-o", "defaults", "-t", "ext4", "/dev/nvme2n1p1", "/"]]⟩
      rfl (by decide) (by decide) (by decide)).2.2
      ⟨1, [], [], [],
        [["fsck", "-M", "-y", "-V", "/dev/nvme1n1p1"], ["fsck", "-M", "-y", "-V", "/dev/nvme2n1p1"],
         ["mount", "-o", "defaults", "-t", "ext4", "/dev/nvme1n1p1", "/data"],
         ["mount", "-o", "defaults", "-t", "ext4", "/dev/nvme2n1p1", "/"]]⟩
      (.panic (.exec "exit status 32")) (by decide)).1,
   ((Run_forced_order 11 (handlerOf 2 true) (worldMountFails twoTagged) ⟨1, [], [], [], []⟩
      twoTagged
      ⟨[["fsck", "-M", "-y", "-V", "/dev/nvme1n1p1"], ["fsck", "-M", "-y", "-V", "/dev/nvme2n1p1"]],
       [["mount", "-o", "defaults", "-t", "ext4", "/dev/nvme1n1p1", "/data"],
        ["mount", "-o", "defaults", "-t", "ext4", "/dev/nvme2n1p1", "/"]]⟩
      rfl (by decide) (by decide) (by decide)).2.2
      ⟨1, [], [], [],
        [["fsck", "-M", "-y", "-V", "/dev/nvme1n1p1"], ["fsck", "-M", "-y", "-V", "/dev/nvme2n1p1"],
         ["mount", "-o", "defaults", "-t", "ext4", "/dev/nvme1n1p1", "/data"],
         ["mount", "-o", "defaults", "-t", "ext4", "/dev/nvme2n1p1", "/"]]⟩
      (.panic (.exec "exit status 32")) (by decide)).2 (by decide) 1
      ["fsck", "-M", "-y", "-V", "/dev/nvme2n1p1"] rfl⟩,
   ((Run_forced_order 11 (handlerOf 2 true) (worldNoMount twoTagged) ⟨1, [], [], [], []⟩
      twoTagged
      ⟨[["fsck", "-M", "-y", "-V", "/dev/nvme1n1p1"], ["fsck", "-M", "-y", "-V", "/dev/nvme2n1p1"]],
       [["mount", "-o", "defaults", "-t", "ext4", "/dev/nvme1n1p1", "/data"],
        ["mount", "-o", "defaults", "-t", "ext4", "/dev/nvme2n1p1", "/"]]⟩
      rfl (by decide) (by decide) (by decide)).2.2
      ⟨1, [], [], [],
        [["fsck", "-M", "-y", "-V", "/dev/nvme1n1p1"], ["fsck", "-M", "-y", "-V", "/dev/nvme2n1p1"]]⟩
      (.panic (.exec "exec: \"mount\": executable file not found in $PATH")) (by decide)).1⟩

/-- A forced run whose deadline is not in the future: with `--timeout 0`,
and with `--timeout 9223372037`, whose number of nanoseconds wraps to a
negative `int64`, the first command is not started and `Run` panics with
nothing spawned. -/
theorem Run_deadline_passed :
    WithTimeout 9223372037 = ⟨-9223372036709551616⟩ ∧
    Run 11 ⟨2, true, "ext4", "defaults", "p1", "Mount", 0⟩ (worldOf twoTagged) =
      some (⟨1, [], [], [], []⟩, .panic (.exec "context deadline exceeded")) ∧
    Run 11 ⟨2, true, "ext4", "defaults", "p1", "Mount", 9223372037⟩ (worldOf twoTagged) =
      some (⟨1, [], [], [], []⟩, .panic (.exec "context deadline exceeded")) := by
  decide

/-- A dry run with a plan of the declared length returns after printing
the check commands, the mount commands and the closing line, one `Println`
call each, and spawns nothing; the forced run with the same flags
otherwise, when every command is executed without error, spawns exactly
these check and mount commands in the same order. -/
theorem Run_dry_output (fuel : Nat) (h : Handler) (w : World) (t : Trace)
    (volumes : List Volume) (plan : Plan) (hforce : h.Force = false)
    (hfetch : fetchLoop w fuel ⟨0⟩ ⟨0, [], [], [], []⟩ = some (t, .ok volumes))
    (hplan : buildLoop h w.fs volumes ⟨[], []⟩ = .ok plan)
    (hcount : h.DeviceNum = (plan.fsckArgs.length : Int)) :
    Run fuel h w =
      some ({ t with stdout :=
        plan.fsckArgs.map (fun args => Join args " ") ++
          plan.mountArgs.map (fun args => Join args " ") ++
          ["Dry run complete. Run with --force to execute the commands."] }, .returned) ∧
    t.spawned = [] ∧
    plan.mountArgs.length = plan.fsckArgs.length ∧
    ((∀ (i : Nat) (c : List String), (plan.fsckArgs ++ plan.mountArgs)[i]? = some c →
          Standard w (WithTimeout h.Timeout) ((plan.fsckArgs ++ plan.mountArgs).take i) c =
            .ok) →
      Run fuel { h with Force := true } w =
        some ({ t with spawned := plan.fsckArgs ++ plan.mountArgs }, .returned)) := by
  have htr := fetchLoop_trace w fuel _ _ t _ hfetch
  have hlen := ((buildLoop_inv h w.fs volumes ⟨[], []⟩ plan hplan).1 rfl).symm
  refine ⟨?_, htr.2.2, hlen, ?_⟩
  · rw [Run_eq_checkAndDrive fuel h w t volumes plan hfetch hplan]
    simp only [checkAndDrive, hcount, ne_eq, not_true_eq_false, if_false, drive_eq, hforce,
      Bool.not_false, commandLoop_dry, if_true, htr.1]
    simp
  · intro hall
    have hplan1 : buildLoop { h with Force := true } w.fs volumes ⟨[], []⟩ = .ok plan := by
      have := buildLoop_flags h w.fs volumes ⟨[], []⟩ h.DeviceNum true
      rw [← hplan, ← this]
    rcases Run_forced fuel { h with Force := true } w t volumes plan rfl hfetch hplan1 hcount
      with ⟨-, hr⟩ | ⟨j, c, e, hj, -, ⟨hfail, -⟩ | ⟨hfail, -⟩⟩
    · exact hr
    · have h1 := hall j c hj
      rw [h1] at hfail
      cases hfail
    · have h1 := hall j c hj
      rw [h1] at hfail
      cases hfail

/-- Claim C8 at a mount point with a line feed: with one tagged volume
whose tag value is `/a`, a line feed and `b`, and `--device-num 1`, the
dry run makes three `Println` calls and the text written has four lines,
not `2 * 1 + 1`. -/
theorem Run_dry_line_feed :
    Run 11 (handlerOf 1 false) (worldOf volumeLineFeed) =
      some (⟨1, [], [],
        ["fsck -M -y -V /dev/nvme1n1p1",
         "mount -o defaults -t ext4 /dev/nvme1n1p1 /a\nb",
         "Dry run complete. Run with --force to execute the commands."], []⟩, .returned) ∧
    textLines (printed
        ["fsck -M -y -V /dev/nvme1n1p1",
         "mount -o defaults -t ext4 /dev/nvme1n1p1 /a\nb",
         "Dry run complete. Run with --force to execute the commands."]) =
      ["fsck -M -y -V /dev/nvme1n1p1", "mount -o defaults -t ext4 /dev/nvme1n1p1 /a", "b",
       "Dry run complete. Run with --force to execute the commands."] ∧
    (textLines (printed
        ["fsck -M -y -V /dev/nvme1n1p1",
         "mount -o defaults -t ext4 /dev/nvme1n1p1 /a\nb",
         "Dry run complete. Run with --force to execute the commands."])).length ≠
      2 * 1 + 1 := by
  decide

/-- Claim C8, amended: in a dry run with a plan of `n` entries, `n` being
the declared number, in which no token of a command contains a line feed,
`Run` spawns nothing and returns after writing to standard output a text of
exactly `2 * n + 1` lines: the `n` check commands in plan order, then the
`n` mount commands in plan order, each as its tokens joined by single
spaces, then the closing line; and the forced run with the same flags
otherwise, when every command is executed without error, spawns exactly
these check and mount commands in the same order. -/
theorem Run_dry_lines (fuel : Nat) (h : Handler) (w : World) (t : Trace)
    (volumes : List Volume) (plan : Plan) (hforce : h.Force = false)
    (hfetch : fetchLoop w fuel ⟨0⟩ ⟨0, [], [], [], []⟩ = some (t, .ok volumes))
    (hplan : buildLoop h w.fs volumes ⟨[], []⟩ = .ok plan)
    (hcount : h.DeviceNum = (plan.fsckArgs.length : Int))
    (hnl : ∀ c ∈ plan.fsckArgs ++ plan.mountArgs, ∀ a ∈ c, '\n' ∉ a.data) :
    Run fuel h w =
      some ({ t with stdout :=
        plan.fsckArgs.map (fun args => Join args " ") ++
          plan.mountArgs.map (fun args => Join args " ") ++
          ["Dry run complete. Run with --force to execute the commands."] }, .returned) ∧
    t.spawned = [] ∧
    textLines (printed
        (plan.fsckArgs.map (fun args => Join args " ") ++
          plan.mountArgs.map (fun args => Join args " ") ++
          ["Dry run complete. Run with --force to execute the commands."])) =
      plan.fsckArgs.map (fun args => Join args " ") ++
        plan.mountArgs.map (fun args => Join args " ") ++
        ["Dry run complete. Run with --force to execute the commands."] ∧
    (textLines (printed
        (plan.fsckArgs.map (fun args => Join args " ") ++
          plan.mountArgs.map (fun args => Join args " ") ++
          ["Dry run complete. Run with --force to execute the commands."]))).length =
      2 * plan.fsckArgs.length + 1 ∧
    plan.mountArgs.length = plan.fsckArgs.length ∧
    ((∀ (i : Nat) (c : List String), (plan.fsckArgs ++ plan.mountArgs)[i]? = some c →
          Standard w (WithTimeout h.Timeout) ((plan.fsckArgs ++ plan.mountArgs).take i) c =
            .ok) →
      Run fuel { h with Force := true } w =
        some ({ t with spawned := plan.fsckArgs ++ plan.mountArgs }, .returned)) := by
  obtain ⟨hrun, hsp, hlen, hforced⟩ :=
    Run_dry_output fuel h w t volumes plan hforce hfetch hplan hcount
  have hlines : textLines (printed
      (plan.fsckArgs.map (fun args => Join args " ") ++
        plan.mountArgs.map (fun args => Join args " ") ++
        ["Dry run complete. Run with --force to execute the commands."])) =
      plan.fsckArgs.map (fun args => Join args " ") ++
        plan.mountArgs.map (fun args => Join args " ") ++
        ["Dry run complete. Run with --force to execute the commands."] := by
    apply textLines_printed
    intro p hp
    simp only [List.mem_append, List.mem_map, List.mem_singleton] at hp
    rcases hp with (⟨c, hc, rfl⟩ | ⟨c, hc, rfl⟩) | rfl
    · exact Join_no_line_feed c (hnl c (by simp [hc]))
    · exact Join_no_line_feed c (hnl c (by simp [hc]))
    · decide
  refine ⟨hrun, hsp, hlines, ?_, hlen, hforced⟩
  rw [hlines]
  simp only [List.length_append, List.length_map, List.length_singleton, hlen]
  omega

/-- Claim C8, amended, at `twoTagged` with `--device-num 2`: the text of
the dry run has the five lines expected. -/
theorem Run_dry_lines_witness :
    textLines (printed
        ["fsck -M -y -V /dev/nvme1n1p1", "fsck -M -y -V /dev/nvme2n1p1",
         "mount -o defaults -t ext4 /dev/nvme1n1p1 /data",
         "mount -o defaults -t ext4 /dev/nvme2n1p1 /",
         "Dry run complete. Run with --force to execute the commands."]) =
      ["fsck -M -y -V /dev/nvme1n1p1", "fsck -M -y -V /dev/nvme2n1p1",
       "mount -o defaults -t ext4 /dev/nvme1n1p1 /data",
       "mount -o defaults -t ext4 /dev/nvme2n1p1 /",
       "Dry run complete. Run with --force to execute the commands."] :=
  (Run_dry_lines 11 (handlerOf 2 false) (worldOf twoTagged) ⟨1, [], [], [], []⟩ twoTagged
      ⟨[["fsck", "-M", "-y", "-V", "/dev/nvme1n1p1"], ["fsck", "-M", "-y", "-V", "/dev/nvme2n1p1"]],
       [["mount", "-o", "defaults", "-t", "ext4", "/dev/nvme1n1p1", "/data"],
        ["mount", "-o", "defaults", "-t", "ext4", "/dev/nvme2n1p1", "/"]]⟩
      rfl (by decide) (by decide) (by decide) (by decide)).2.2.1

/-- When every call of `metadata.Volumes` that the retry loop can still
make fails, the loop makes one call per remaining value of the attempt
counter, the value `maxTries` included, and then gives up. -/
theorem fetchLoop_all_fail (w : World) (fuel : Nat) (b : Backoff) (t : Trace)
    (hb : b.attempt ≤ maxTries) (hfuel : maxTries < fuel + b.attempt)
    (hfail : ∀ k, t.fetches ≤ k → k ≤ t.fetches + (maxTries - b.attempt) →
      (w.Volumes k).2 ≠ none) :
    ∃ t1 e, fetchLoop w fuel b t = some (t1, .error e) ∧
      t1.fetches = t.fetches + (maxTries - b.attempt) + 1 ∧
      t1.errLog.length = t.errLog.length + (maxTries - b.attempt) := by
  induction fuel generalizing b t with
  | zero => omega
  | succ fuel ih =>
    obtain ⟨err, herr⟩ := Option.ne_none_iff_exists'.mp
      (hfail t.fetches (Nat.le_refl _) (Nat.le_add_right _ _))
    simp only [fetchLoop, herr]
    by_cases hm : b.Attempt = maxTries
    · have hm1 : b.attempt = maxTries := hm
      simp only [hm, if_true]
      exact ⟨_, _, rfl, by simp [hm1], by simp [hm1]⟩
    · have hm1 : b.attempt ≠ maxTries := hm
      simp only [hm, if_false]
      have hstep := ih (b.Duration w.durationText).2
        { fetches := t.fetches + 1
          errLog := t.errLog ++ ["failed to get volumes metadata [" ++ err ++
            "], trying again after " ++ (b.Duration w.durationText).1]
          stderr := t.stderr
          stdout := t.stdout
          spawned := t.spawned }
        (by simp only [Backoff.Duration]; omega)
        (by simp only [Backoff.Duration]; omega)
        (by
          intro k hk1 hk2
          simp only [Backoff.Duration] at hk2
          exact hfail k (by simp only at hk1; omega) (by simp only at hk1 hk2; omega))
      obtain ⟨t1, e, h1, h2, h3⟩ := hstep
      refine ⟨t1, e, h1, ?_, ?_⟩
      · rw [h2]
        simp only [Backoff.Duration]
        omega
      · rw [h3]
        simp only [Backoff.Duration, List.length_append, List.length_singleton]
        omega

/-- Whenever the first eleven calls of `metadata.Volumes` fail, `Run` makes
all eleven before it panics, having announced ten retries. -/
theorem Run_all_fail (h : Handler) (w : World)
    (hfail : ∀ k, k ≤ 10 → (w.Volumes k).2 ≠ none) :
    ∃ t e, Run 11 h w = some (t, .panic e) ∧ t.fetches = 11 ∧ t.errLog.length = 10 := by
  obtain ⟨t1, e, h1, h2, h3⟩ := fetchLoop_all_fail w 11 ⟨0⟩ ⟨0, [], [], [], []⟩
    (by decide) (by decide) (fun k _ hk => hfail k (by simpa [maxTries] using hk))
  refine ⟨t1, e, by simp [Run, h1], ?_, ?_⟩
  · simpa [maxTries] using h2
  · simpa [maxTries] using h3

/-- Claim C1 at `threeVolumes` with `--device-num 3`: the file system has
no link for the third volume, so `FindNvmeVolume` returns the empty path
for it; its two commands are in the plan all the same, on the partition
`p1`, the count check passes, and the dry run prints six commands while
the forced run spawns them. -/
theorem Run_unresolved_device :
    FindNvmeVolume fsTwo (symlinkName "vol-0c") = ("", none) ∧
    Run 11 (handlerOf 3 false) (worldOf threeVolumes) =
      some (⟨1, [], [],
        ["fsck -M -y -V /dev/nvme1n1p1", "fsck -M -y -V /dev/nvme2n1p1", "fsck -M -y -V p1",
         "mount -o defaults -t ext4 /dev/nvme1n1p1 /data",
         "mount -o defaults -t ext4 /dev/nvme2n1p1 /",
         "mount -o defaults -t ext4 p1 /srv",
         "Dry run complete. Run with --force to execute the commands."], []⟩, .returned) ∧
    Run 11 (handlerOf 3 true) (worldOf threeVolumes) =
      some (⟨1, [], [], [],
        [["fsck", "-M", "-y", "-V", "/dev/nvme1n1p1"], ["fsck", "-M", "-y", "-V", "/dev/nvme2n1p1"],
         ["fsck", "-M", "-y", "-V", "p1"],
         ["mount", "-o", "defaults", "-t", "ext4", "/dev/nvme1n1p1", "/data"],
         ["mount", "-o", "defaults", "-t", "ext4", "/dev/nvme2n1p1", "/"],
         ["mount", "-o", "defaults", "-t", "ext4", "p1", "/srv"]]⟩, .returned) := by
  decide

/-- Claim C3 at worlds in which the fetch keeps failing: when every call
fails, `Run` panics only after the eleventh call of `metadata.Volumes`; and
when the first ten calls fail and the eleventh succeeds, `Run` does not
abort but prints the plan. -/
theorem Run_eleven_fetches :
    Run 11 (handlerOf 2 false) (worldFailing 11) =
      some (⟨11,
        List.replicate 10
          "failed to get volumes metadata [connection refused], trying again after 100ms",
        [], [], []⟩,
        .panic (.fetch "failed to get volumes metadata after 10 tries" "connection refused")) ∧
    Run 11 (handlerOf 2 false) (worldFailing 10) =
      some (⟨11,
        List.replicate 10
          "failed to get volumes metadata [connection refused], trying again after 100ms",
        [],
        ["fsck -M -y -V /dev/nvme1n1p1", "fsck -M -y -V /dev/nvme2n1p1",
         "mount -o defaults -t ext4 /dev/nvme1n1p1 /data",
         "mount -o defaults -t ext4 /dev/nvme2n1p1 /",
         "Dry run complete. Run with --force to execute the commands."], []⟩, .returned) := by
  decide

end Ec2MountVolume
